import Mathlib

/-!
Verification development for the `endee` RAG repository.

This file shallowly embeds the core of the repository:
  - `rag_project/ingestion/ingest.py`  (sentence splitting, chunking, id assignment)
  - `rag_project/retrieval/search.py`  (search response handling, id-to-text mapping)
  - `rag_project/rag_pipeline.py`      (context assembly, prompt template, placeholder generator)
  - `rag_project/app.py`               (question answering entry point)

Python strings are modelled as Lean `String` (a wrapper around `List Char`);
Python string primitives (`in`, `split`, `replace(old, new, 1)`, `strip`,
`endswith`, slicing) are modelled by executable functions on `List Char`
defined below.  The Python whitespace class `\s` and `str.strip` are modelled
over the six ASCII whitespace characters; external collaborators (the
embedding model, the HTTP transport, the msgpack decoder) are modelled as
function parameters.  Python exceptions are modelled with `Except`.
-/

/-- ASCII whitespace, modelling the whitespace class used by Python
`\s` and `str.strip` (restricted to ASCII). -/
def isWs (c : Char) : Bool :=
  c = ' ' || c = '\t' || c = '\n' || c = '\r' || c = '\x0b' || c = '\x0c'

/-- Sentence-ending punctuation from the regex `(?<=[.!?])\s+` in `ingest.py`. -/
def isEnd (c : Char) : Bool :=
  c = '.' || c = '!' || c = '?'

/-- Drop the maximal leading run of whitespace characters. -/
def dropWs : List Char → List Char
  | [] => []
  | c :: cs => if isWs c then dropWs cs else c :: cs

/-- Python `str.strip()`: drop leading and trailing whitespace. -/
def pyStripL (l : List Char) : List Char :=
  (dropWs (dropWs l).reverse).reverse

/-- Python `str.strip()` at `String` level. -/
def pyStrip (s : String) : String :=
  ⟨pyStripL s.data⟩

/-- `isPre p l` holds when `p` is a prefix of `l` (executable). -/
def isPre : List Char → List Char → Bool
  | [], _ => true
  | _ :: _, [] => false
  | a :: as, b :: bs => a = b && isPre as bs

/-- Split at the first occurrence of `pat`: returns the part before the
occurrence and the part after it, or `none` when `pat` does not occur.
This models the Python operations `s.split(pat, 1)`, `s.replace(pat, x, 1)`
and `pat in s` for a non-empty `pat`. -/
def splitFirst (pat : List Char) : List Char → Option (List Char × List Char)
  | [] => if pat.isEmpty then some ([], []) else none
  | c :: rest =>
    if isPre pat (c :: rest) then some ([], (c :: rest).drop pat.length)
    else (splitFirst pat rest).map (fun pr => (c :: pr.1, pr.2))

/-- `pat` occurs as a contiguous substring of `l`. -/
def Occurs (pat l : List Char) : Prop :=
  ∃ a b, l = a ++ pat ++ b

/-- Python `needle in hay` for strings (needle non-empty in all uses). -/
def pyIn (needle hay : String) : Bool :=
  (splitFirst needle.data hay.data).isSome

/-- Python `s.replace(pat, "", 1)`: remove the first occurrence of `pat`. -/
def removeFirst (pat l : List Char) : List Char :=
  match splitFirst pat l with
  | some (b, a) => b ++ a
  | none => l

/-- Python `s.split(pat)[0]`: the part of `l` before the first occurrence
of `pat`, or all of `l` when `pat` does not occur. -/
def upToFirst (pat l : List Char) : List Char :=
  match splitFirst pat l with
  | some (b, _) => b
  | none => l

/-- Python `s.endswith(suffix)`. -/
def pyEndsWith (s suffix : String) : Bool :=
  isPre suffix.data.reverse s.data.reverse

/-- Python slicing `s[:n]`. -/
def pyTake (s : String) (n : Nat) : String :=
  ⟨s.data.take n⟩

/-- `needle` occurs as a contiguous substring of `hay` (`String` level,
used to state containment properties of composed answers). -/
def ContainsStr (hay needle : String) : Prop :=
  ∃ pre post, hay = pre ++ needle ++ post

/-!  ## Chunker (`ingest.py`, `split_into_chunks`)  -/

/-- The splitting loop of `re.split(r"(?<=[.!?])\s+", text)`: walk the
characters; when a whitespace character immediately follows one of `.`, `!`,
`?`, cut a piece there and skip the maximal whitespace run (the greedy
`\s+`).  `prev` is the previously consumed character, `acc` the current
piece in reverse. -/
def splitSentGo (prev : Option Char) (acc : List Char) : List Char → List (List Char)
  | [] => [acc.reverse]
  | c :: rest =>
    if isWs c && (match prev with | some p => isEnd p | none => false) then
      acc.reverse :: splitSentGo none [] (dropWs rest)
    else
      splitSentGo (some c) (c :: acc) rest
termination_by l => l.length
decreasing_by
  · have h : ∀ l : List Char, (dropWs l).length ≤ l.length := by
      intro l
      induction l with
      | nil => simp [dropWs]
      | cons d ds ih =>
        simp only [dropWs]
        split
        · exact Nat.le_succ_of_le ih
        · simp
    exact Nat.lt_succ_of_le (h _)
  · exact Nat.lt_succ_self _

/-- The sentence list of `split_into_chunks`:
`[s.strip() for s in sentence_end.split(text) if s.strip()]`. -/
def sentencesOf (text : String) : List String :=
  ((splitSentGo none [] text.data).map (fun cs => (⟨pyStripL cs⟩ : String))).filter
    (fun s => s ≠ "")

/-- The grouping loop of `split_into_chunks`: take up to 3 sentences per
chunk (`while i < len(sentences): chunks.append(sentences[i : i + 3]); i += 3`). -/
def chunkGroups : List String → List (List String)
  | [] => []
  | a :: rest => (a :: rest.take 2) :: chunkGroups (rest.drop 2)
termination_by l => l.length
decreasing_by
  simp only [List.length_drop, List.length_cons]
  omega

/-- `split_into_chunks` from `ingest.py`: split into stripped non-empty
sentences, then join groups of at most 3 with a single space. -/
def split_into_chunks (text : String) : List String :=
  (chunkGroups (sentencesOf text)).map (fun g => String.intercalate " " g)

/-!  ## Answer composer (`rag_pipeline.py`)  -/

/-- `build_context` from `rag_pipeline.py`: `"\n\n".join(chunks).strip()`. -/
def build_context (chunks : List String) : String :=
  pyStrip (String.intercalate "\n\n" chunks)

/-- `build_prompt` from `rag_pipeline.py`. -/
def build_prompt (context question : String) : String :=
  "Context:\n" ++ context ++ "\n\nQuestion:\n" ++ question ++ "\n\nAnswer:"

/-- The parsing step of `placeholder_llm` (lines 28-30 of `rag_pipeline.py`):
`parts = prompt.split("\n\nQuestion:\n", 1)`;
`context_block = parts[0].replace("Context:\n", "", 1).strip()`;
`question_block = parts[1].replace("\n\nAnswer:", "", 1).strip()`.
The `none` branch is unreachable under the guard of `placeholder_llm`
(in Python `parts[1]` would raise there). -/
def parsePrompt (prompt : String) : String × String :=
  match splitFirst ("\n\nQuestion:\n").data prompt.data with
  | some (p0, p1) =>
      (⟨pyStripL (removeFirst ("Context:\n").data p0)⟩,
       ⟨pyStripL (removeFirst ("\n\nAnswer:").data p1)⟩)
  | none =>
      (⟨pyStripL (removeFirst ("Context:\n").data prompt.data)⟩, "")

/-- The first-sentence extraction of `placeholder_llm` (lines 32-34):
`first_sentence = context_block.split(". ")[0].strip()`, then append a
period when it does not already end with one. -/
def firstSentenceOf (contextBlock : String) : String :=
  let fs : String := ⟨pyStripL (upToFirst (". ").data contextBlock.data)⟩
  if pyEndsWith fs "." then fs else fs ++ "."

/-- `placeholder_llm` from `rag_pipeline.py`. -/
def placeholder_llm (prompt : String) : String :=
  if pyIn "Context:\n" prompt && pyIn "\n\nQuestion:\n" prompt then
    "Based on the context: " ++ firstSentenceOf (parsePrompt prompt).1 ++
      " In answer to \"" ++ (parsePrompt prompt).2 ++
      "\": The relevant information is in the context above."
  else
    "I could not generate an answer from the given prompt."

/-- The composition tail of `run_rag` (lines 48-62 of `rag_pipeline.py`),
with the generator abstracted as a parameter (the source fixes it to
`placeholder_llm`): `if not chunks: return "No relevant context was found
for your question."` else build context, build prompt, generate. -/
def composeWith (gen : String → String) (chunks : List String) (question : String) : String :=
  if chunks.isEmpty then "No relevant context was found for your question."
  else gen (build_prompt (build_context chunks) question)

/-- Python exceptions surfaced by the embedded code. -/
inductive PyErr where
  /-- `RuntimeError(f"Search failed: ...")` raised in `retrieve_chunks`. -/
  | runtimeError (msg : String)
  /-- msgpack decoding failure in `msgpack.unpackb`. -/
  | unpackError
  /-- `IndexError` from an out-of-bounds sequence index. -/
  | indexError
  /-- `TypeError` (iterating a non-iterable, or an unhashable dict key). -/
  | typeError
deriving DecidableEq

/-- `str(e)` for the exceptions above, as used in `app.py`. -/
def pyErrStr : PyErr → String
  | .runtimeError msg => msg
  | .unpackError => "unpack failed"
  | .indexError => "list index out of range"
  | .typeError => "type error"

/-- `run_rag` from `rag_pipeline.py`, with retrieval abstracted as a
parameter (`retrieve_chunks` performs network and file effects); an
exception from retrieval propagates. -/
def run_rag (retrieve : String → Except PyErr (List String)) (question : String) :
    Except PyErr String :=
  match retrieve question with
  | .error e => .error e
  | .ok chunks => .ok (composeWith placeholder_llm chunks question)

/-- The JSON value returned by the `/ask` endpoint of `app.py`:
`{question, answer}` on success, `{error, note}` on failure. -/
inductive AskResponse where
  | success (question answer : String)
  | failure (error note : String)

/-- `ask` from `app.py`: run the pipeline, catch every exception and
downgrade it to a structured error payload. -/
def ask (retrieve : String → Except PyErr (List String)) (question : String) : AskResponse :=
  match run_rag retrieve question with
  | .ok answer => .success question answer
  | .error e =>
      .failure (pyErrStr e) "Error occurred inside RAG pipeline (retrieval / Endee search)."

/-!  ## Retrieval (`retrieval/search.py`)  -/

/-- Values produced by `msgpack.unpackb(..., raw=False)`, restricted to the
constructors the retrieval code distinguishes.  Dictionary keys and the
fields of metadata records are modelled as strings (as produced by
ingestion and JSON object keys). -/
inductive MVal where
  | mstr (s : String)
  | mint (n : Int)
  | mbool (b : Bool)
  | mnil
  | mlist (xs : List MVal)
  | mdict (kvs : List (String × MVal))

/-- Python `d.get(k)` on a string-keyed dict. -/
def dictGet (kvs : List (String × MVal)) (k : String) : Option MVal :=
  (kvs.find? (fun kv => kv.1 = k)).map (fun kv => kv.2)

/-- Lines 78-85 of `search.py`:
`results = payload` when the payload is a list,
`payload.get("results", payload.get("dense", []))` when it is a dict,
`[]` otherwise. -/
def extractResults : MVal → MVal
  | .mlist xs => .mlist xs
  | .mdict kvs =>
      match dictGet kvs "results" with
      | some v => v
      | none =>
          match dictGet kvs "dense" with
          | some v => v
          | none => .mlist []
  | _ => .mlist []

/-- Python iteration `for item in results`: lists yield their elements,
strings their one-character substrings, dicts their keys; iterating an
int, bool or None raises `TypeError` (`none` here). -/
def iterItems : MVal → Option (List MVal)
  | .mlist xs => some xs
  | .mstr s => some (s.data.map (fun c => .mstr ⟨[c]⟩))
  | .mdict kvs => some (kvs.map (fun kv => .mstr kv.1))
  | _ => none

/-- Python `str(v)` for the hashable values that can appear as a chunk id. -/
def pyStrOfHashable : MVal → Option String
  | .mstr s => some s
  | .mint n => some (toString n)
  | .mbool true => some "True"
  | .mbool false => some "False"
  | .mnil => some "None"
  | _ => none

/-- A metadata mapping as loaded from `chunk_metadata.json`:
chunk id to a JSON object whose fields are strings
(ingestion writes `{"text": chunk}`). -/
abbrev Metadata := List (String × List (String × String))

/-- `chunk_id in metadata and "text" in metadata[chunk_id]`, returning the
text when both hold. -/
def metaText (metadata : Metadata) (key : String) : Option String :=
  match metadata.find? (fun kv => kv.1 = key) with
  | some (_, r) =>
      match r.find? (fun kv => kv.1 = "text") with
      | some (_, t) => some t
      | none => none
  | none => none

/-- The sentinel `f"[No text for id: {chunk_id}]"`. -/
def sentinelFor (idStr : String) : String :=
  "[No text for id: " ++ idStr ++ "]"

/-- The id-mapping loop of `retrieve_chunks` (lines 91-104 of `search.py`):
skip an item that is not a list/tuple or is empty; read `item[1]` as the
chunk id (`IndexError` when the item has fewer than two elements); look the
id up in the metadata (`TypeError` when the id is unhashable); append the
text when found, the sentinel otherwise. -/
def mapLoop (metadata : Metadata) : List MVal → Except PyErr (List String)
  | [] => .ok []
  | item :: rest =>
    match item with
    | .mlist [] => mapLoop metadata rest
    | .mlist (_ :: xs) =>
      match xs with
      | [] => .error .indexError
      | cid :: _ =>
        match pyStrOfHashable cid with
        | none => .error .typeError
        | some key =>
          let entry :=
            match cid, metaText metadata key with
            | .mstr _, some t => t
            | _, _ => sentinelFor key
          match mapLoop metadata rest with
          | .ok out => .ok (entry :: out)
          | .error e => .error e
    | _ => mapLoop metadata rest

/-- An HTTP search response as observed by `retrieve_chunks`: status code,
declared content type, textual rendering (`response.text`) and raw body
(`response.content`, of an abstract type decoded only by the msgpack
decoder parameter). -/
structure SearchResponse (β : Type) where
  status : Nat
  contentType : String
  bodyText : String
  content : β

/-- `retrieve_chunks` from `search.py`, from the point where the search
response is available (embedding the query and posting the request are
external effects).  Parameters: `unpack` models `msgpack.unpackb`,
`metadata` the loaded `chunk_metadata.json`.  Returns the retrieval result
(or the raised exception) together with the list of diagnostic lines
printed on stdout. -/
def retrieveFromResponse {β : Type} (unpack : β → Except PyErr MVal)
    (metadata : Metadata) (resp : SearchResponse β) :
    Except PyErr (List String) × List String :=
  if resp.status ≠ 200 then
    (.error (.runtimeError ("Search failed: " ++ resp.bodyText)), [])
  else if !(pyIn "application/msgpack" resp.contentType) then
    (.ok [], ["DEBUG: Non-msgpack response from Endee", pyTake resp.bodyText 300])
  else
    match unpack resp.content with
    | .error e => (.error e, [])
    | .ok payload =>
      match iterItems (extractResults payload) with
      | none => (.error .typeError, [])
      | some items => (mapLoop metadata items, [])

/-!  ## Ingestion id assignment (`ingest.py`, `main`)  -/

/-- Decimal digit character (injective on digits, checked by cases). -/
def digitChar : Nat → Char
  | 0 => '0' | 1 => '1' | 2 => '2' | 3 => '3' | 4 => '4'
  | 5 => '5' | 6 => '6' | 7 => '7' | 8 => '8' | _ => '9'

/-- Inverse of `digitChar` on decimal digit characters. -/
def charDigit : Char → Nat
  | '0' => 0 | '1' => 1 | '2' => 2 | '3' => 3 | '4' => 4
  | '5' => 5 | '6' => 6 | '7' => 7 | '8' => 8 | _ => 9

/-- Little-endian decimal digits of a positive number (empty for 0). -/
def toDigitsRev : Nat → List Nat
  | 0 => []
  | n + 1 => (n + 1) % 10 :: toDigitsRev ((n + 1) / 10)
decreasing_by exact Nat.div_lt_self (Nat.succ_pos n) (by omega)

/-- Big-endian decimal rendering of a natural number, modelling Python
`str(i)` for the non-negative loop index of `enumerate`. -/
def natStr (n : Nat) : String :=
  if n = 0 then "0" else ⟨((toDigitsRev n).reverse.map digitChar)⟩

/-- The chunk id `f"chunk_{i}"` assigned by the ingestion loop. -/
def chunkId (i : Nat) : String :=
  "chunk_" ++ natStr i

/-- One `{"id": ..., "vector": ...}` entry of the insert payload. -/
structure VecEntry (V : Type) where
  id : String
  vector : V

/-- The ingestion loop of `main` in `ingest.py`
(`for i, (chunk, emb) in enumerate(zip(chunks, embeddings))`), building the
insert payload and the metadata record side by side; `i` is the running
index of `enumerate`. -/
def ingestLoop {V : Type} : Nat → List (String × V) → List (VecEntry V) × List (String × String)
  | _, [] => ([], [])
  | i, (c, e) :: rest =>
    let tail := ingestLoop (i + 1) rest
    (⟨chunkId i, e⟩ :: tail.1, (chunkId i, c) :: tail.2)

/-- One ingestion run after chunking: embed every chunk
(`model.encode(chunks)`, position-aligned), zip chunks with embeddings and
run the loop from index 0.  Returns (vectors payload, metadata items). -/
def ingestRun {V : Type} (embed : String → V) (chunks : List String) :
    List (VecEntry V) × List (String × String) :=
  ingestLoop 0 (chunks.zip (chunks.map embed))

/-- Value of a little-endian decimal digit list (proof tool: used to show
that `natStr` is injective). -/
def fromDigitsLE : List Nat → Nat
  | [] => 0
  | d :: ds => d + 10 * fromDigitsLE ds

/-- Parse back the decimal rendering (left inverse of `natStr`). -/
def parseNat (s : String) : Nat :=
  fromDigitsLE ((s.data.map charDigit).reverse)

/-!  ## Lemmas: chunk grouping  -/

theorem chunkGroups_flatten (l : List String) : (chunkGroups l).flatten = l := by
  induction l using chunkGroups.induct with
  | case1 => simp [chunkGroups]
  | case2 a rest ih =>
    rw [chunkGroups]
    simp only [List.flatten_cons, List.cons_append, ih]
    simp [List.take_append_drop]

theorem chunkGroups_length (l : List String) :
    (chunkGroups l).length = (l.length + 2) / 3 := by
  induction l using chunkGroups.induct with
  | case1 => simp [chunkGroups]
  | case2 a rest ih =>
    rw [chunkGroups]
    simp only [List.length_cons, ih, List.length_drop]
    omega

theorem chunkGroups_short (l : List String) :
    ∀ g ∈ chunkGroups l, g.length ≤ 3 ∧ g ≠ [] := by
  induction l using chunkGroups.induct with
  | case1 => simp [chunkGroups]
  | case2 a rest ih =>
    rw [chunkGroups]
    intro g hg
    rcases List.mem_cons.mp hg with h | h
    · subst h
      refine ⟨?_, by simp⟩
      have := List.length_take_le 2 rest
      simp only [List.length_cons]
      omega
    · exact ih g h

/-- C2: `split_into_chunks` yields `ceil(sentence_count / 3)` chunks (in
natural-number arithmetic, `(n + 2) / 3`); the sentence groups, each of at
most 3 sentences, concatenate back to the original sentence sequence; every
chunk is the space-join of its group; and the empty input yields no chunks. -/
theorem split_into_chunks_spec (text : String) :
    (split_into_chunks text).length = ((sentencesOf text).length + 2) / 3
    ∧ (chunkGroups (sentencesOf text)).flatten = sentencesOf text
    ∧ (∀ g ∈ chunkGroups (sentencesOf text), g.length ≤ 3)
    ∧ split_into_chunks text
        = (chunkGroups (sentencesOf text)).map (fun g => String.intercalate " " g)
    ∧ split_into_chunks "" = [] := by
  refine ⟨?_, chunkGroups_flatten _, fun g hg => (chunkGroups_short _ g hg).1, rfl, ?_⟩
  · simp [split_into_chunks, chunkGroups_length]
  · simp [split_into_chunks, sentencesOf, splitSentGo, chunkGroups, pyStripL, dropWs]

/-!  ## Composer short-circuit, generator fallback, entry-point totality  -/

/-- C3 counterexample: the chunk list `[""]` is non-empty, its assembled
whitespace-trimmed context is empty, yet composition does invoke the
generator (two generators that differ give different composed answers), so
the generator is not never-invoked on empty context. -/
theorem compose_generator_called_on_empty_context :
    build_context [""] = ""
    ∧ composeWith (fun _ => "A") [""] "q" ≠ composeWith (fun _ => "B") [""] "q" := by
  constructor
  · decide
  · decide

/-- C3 (amended): composition on an empty chunk list returns the fixed
no-relevant-context message and does not invoke the generator (the result
does not depend on it); on any non-empty chunk list the generator is
invoked on the templated prompt, even when the assembled context is empty. -/
theorem compose_empty_short_circuit :
    (∀ (gen : String → String) (q : String),
       composeWith gen [] q = "No relevant context was found for your question.")
    ∧ (∀ (gen gen' : String → String) (q : String),
       composeWith gen [] q = composeWith gen' [] q)
    ∧ (∀ (gen : String → String) (chunks : List String) (q : String), chunks ≠ [] →
       composeWith gen chunks q = gen (build_prompt (build_context chunks) q)) := by
  refine ⟨fun gen q => rfl, fun gen gen' q => rfl, fun gen chunks q h => ?_⟩
  unfold composeWith
  rw [if_neg (by simpa using h)]

theorem compose_empty_short_circuit_witness :
    composeWith (fun _ => "G") [] "q" = "No relevant context was found for your question."
    ∧ (["c"] ≠ ([] : List String))
    ∧ composeWith (fun _ => "G") ["c"] "q" = "G" :=
  ⟨compose_empty_short_circuit.1 (fun _ => "G") "q", by decide,
   by rw [compose_empty_short_circuit.2.2 (fun _ => "G") ["c"] "q" (by decide)]⟩

/-- C5: when the two template markers are not both present in the prompt,
`placeholder_llm` returns the fixed fallback string (and, being a total
function, raises nothing). -/
theorem placeholder_llm_fallback (prompt : String)
    (h : ¬(pyIn "Context:\n" prompt = true ∧ pyIn "\n\nQuestion:\n" prompt = true)) :
    placeholder_llm prompt = "I could not generate an answer from the given prompt." := by
  unfold placeholder_llm
  rw [if_neg]
  simpa using h

theorem placeholder_llm_fallback_witness :
    ¬(pyIn "Context:\n" "Context:\nParis is nice." = true
       ∧ pyIn "\n\nQuestion:\n" "Context:\nParis is nice." = true)
    ∧ placeholder_llm "Context:\nParis is nice."
        = "I could not generate an answer from the given prompt." :=
  ⟨by decide, placeholder_llm_fallback "Context:\nParis is nice." (by decide)⟩

/-- C8: for every question and every outcome of the pipeline below it
(retrieval, decoding, metadata loading and composition are all abstracted
into the `retrieve` parameter and the total composer), the `/ask` entry
point returns a normal response carrying either a question/answer pair or
an error/note pair; no exception propagates. -/
theorem ask_never_propagates (retrieve : String → Except PyErr (List String)) (q : String) :
    (∃ a, ask retrieve q = .success q a)
    ∨ (∃ e, ask retrieve q
        = .failure e "Error occurred inside RAG pipeline (retrieval / Endee search).") := by
  cases h : retrieve q with
  | ok chunks => exact .inl ⟨composeWith placeholder_llm chunks q, by simp [ask, run_rag, h]⟩
  | error e => exact .inr ⟨pyErrStr e, by simp [ask, run_rag, h]⟩

/-!  ## Lemmas: substring search  -/

theorem isPre_iff (p : List Char) : ∀ l, isPre p l = true ↔ ∃ t, l = p ++ t := by
  induction p with
  | nil => intro l; simp [isPre]
  | cons a as ih =>
    intro l
    cases l with
    | nil => simp [isPre]
    | cons b bs =>
      simp only [isPre, Bool.and_eq_true, decide_eq_true_eq, ih, List.cons_append,
        List.cons.injEq]
      constructor
      · rintro ⟨hab, t, ht⟩
        exact ⟨t, hab.symm, ht⟩
      · rintro ⟨t, hab, ht⟩
        exact ⟨hab.symm, t, ht⟩

theorem splitFirst_isSome_of_append (pat : List Char) :
    ∀ a b, (splitFirst pat (a ++ pat ++ b)).isSome = true := by
  intro a
  induction a with
  | nil =>
    intro b
    by_cases hp : pat = []
    · subst hp
      cases b with
      | nil => simp [splitFirst]
      | cons c cs => simp [splitFirst, isPre]
    · obtain ⟨p, ps, rfl⟩ := List.exists_cons_of_ne_nil hp
      have hpre : isPre (p :: ps) (p :: (ps ++ b)) = true :=
        (isPre_iff _ _).mpr ⟨b, rfl⟩
      simp only [List.nil_append, List.cons_append, List.append_eq, splitFirst]
      rw [hpre]
      simp
  | cons c a' ih =>
    intro b
    simp only [List.cons_append, List.append_eq, splitFirst]
    split
    · simp
    · simpa using ih b

/-- Contrapositive form used to convert `pyIn x s = false` into
non-occurrence. -/
theorem not_occurs_of_splitFirst_none (pat l : List Char)
    (h : (splitFirst pat l).isSome = false) : ¬ Occurs pat l := by
  rintro ⟨a, b, rfl⟩
  rw [splitFirst_isSome_of_append pat a b] at h
  exact absurd h (by decide)

theorem splitFirst_pat_head (pat : List Char) (hne : pat ≠ []) (t : List Char) :
    splitFirst pat (pat ++ t) = some ([], t) := by
  obtain ⟨p, ps, rfl⟩ := List.exists_cons_of_ne_nil hne
  have hpre : isPre (p :: ps) (p :: (ps ++ t)) = true := (isPre_iff _ _).mpr ⟨t, rfl⟩
  simp only [List.cons_append, List.append_eq, splitFirst]
  rw [hpre]
  simp only [if_true]
  rw [← List.cons_append, List.drop_left]

/-- When `pat` does not occur inside `pre ++ pat.dropLast` (that is, there
is no occurrence strictly before the explicit one, occurrences that span
the boundary included), splitting finds exactly the explicit occurrence. -/
theorem splitFirst_append_pat (pat : List Char) (hne : pat ≠ []) :
    ∀ pre suf, ¬ Occurs pat (pre ++ pat.dropLast) →
      splitFirst pat (pre ++ pat ++ suf) = some (pre, suf) := by
  intro pre
  induction pre with
  | nil =>
    intro suf _
    simpa using splitFirst_pat_head pat hne suf
  | cons c p' ih =>
    intro suf hno
    rw [List.append_assoc, List.cons_append]
    have hnotpre : isPre pat (c :: (p' ++ (pat ++ suf))) = false := by
      by_contra hcontra
      have hpre : isPre pat (c :: (p' ++ (pat ++ suf))) = true := by
        revert hcontra; cases isPre pat (c :: (p' ++ (pat ++ suf))) <;> simp
      obtain ⟨t, heq⟩ := (isPre_iff pat _).mp hpre
      rw [← List.cons_append] at heq
      -- heq : (c :: p') ++ (pat ++ suf) = pat ++ t
      apply hno
      rcases le_or_lt pat.length (c :: p').length with hle | hlt
      · -- pat is an initial segment of c :: p'
        have htk : pat = (c :: p').take pat.length := by
          have h1 : ((c :: p') ++ (pat ++ suf)).take pat.length
              = (c :: p').take pat.length := List.take_append_of_le_length hle
          rw [heq, List.take_left] at h1
          exact h1
        refine ⟨[], (c :: p').drop pat.length ++ pat.dropLast, ?_⟩
        conv_lhs => rw [← List.take_append_drop pat.length (c :: p'), ← htk]
        simp [List.append_assoc]
      · -- c :: p' is a proper prefix of pat
        have hq : c :: p' = pat.take (c :: p').length := by
          have h1 : ((c :: p') ++ (pat ++ suf)).take (c :: p').length = c :: p' :=
            List.take_left _ _
          rw [heq, List.take_append_of_le_length (Nat.le_of_lt hlt)] at h1
          exact h1.symm
        have hdrop : pat ++ suf = pat.drop (c :: p').length ++ t := by
          have h1 : ((c :: p') ++ (pat ++ suf)).drop (c :: p').length = pat ++ suf :=
            List.drop_left _ _
          rw [heq, List.drop_append_of_le_length (Nat.le_of_lt hlt)] at h1
          exact h1.symm
        set k : Nat := pat.length - (c :: p').length with hk
        have hdl : pat.drop (c :: p').length = pat.take k := by
          have hlen : (pat.drop (c :: p').length).length = k := by
            simp [hk]
          have h1 : (pat.drop (c :: p').length ++ t).take k = pat.drop (c :: p').length :=
            List.take_left' hlen
          rw [← hdrop, List.take_append_of_le_length (by omega)] at h1
          exact h1.symm
        have hpat : pat = (c :: p') ++ pat.take k := by
          conv_lhs => rw [← List.take_append_drop (c :: p').length pat, ← hq, hdl]
        have hkle : k ≤ pat.length - 1 := by
          have hp : 0 < (c :: p').length := by simp
          omega
        have hsplit : pat.dropLast = pat.take k ++ pat.dropLast.drop k := by
          conv_lhs => rw [← List.take_append_drop k pat.dropLast]
          congr 1
          rw [List.dropLast_eq_take, List.take_take]
          congr 1
          omega
        refine ⟨[], pat.dropLast.drop k, ?_⟩
        rw [List.nil_append]
        conv_lhs => rw [hsplit, ← List.append_assoc, ← hpat]
    simp only [splitFirst, hnotpre]
    simp only [Bool.false_eq_true, if_false]
    have harg : p' ++ (pat ++ suf) = p' ++ pat ++ suf := (List.append_assoc p' pat suf).symm
    rw [harg, ih suf (fun hocc => hno (by
      obtain ⟨a, b, hab⟩ := hocc
      exact ⟨c :: a, b, by simp [hab, List.append_assoc]⟩))]
    rfl

/-- For a pattern with no non-trivial border (no proper suffix that is also
a prefix), appending `pat.dropLast` to a string free of `pat` cannot create
an occurrence of `pat`. -/
theorem not_occurs_append_dropLast (pat q : List Char) (hne : pat ≠ [])
    (hbf : ∀ j, j < pat.length → 1 ≤ j → isPre (pat.drop j) pat = false)
    (h : ¬ Occurs pat q) : ¬ Occurs pat (q ++ pat.dropLast) := by
  rintro ⟨a, b, hab⟩
  rw [List.append_assoc] at hab
  have hlen := congrArg List.length hab
  simp only [List.length_append, List.length_dropLast] at hlen
  have hpat1 : 1 ≤ pat.length := by
    cases hp : pat with
    | nil => exact absurd hp hne
    | cons x xs => simp
  rcases le_or_lt (a.length + pat.length) q.length with hle | hgt
  · -- the occurrence lies inside q
    apply h
    have htake : q = (a ++ (pat ++ b)).take q.length := by
      rw [← hab, List.take_left]
    rw [List.take_append_eq_append_take, List.take_append_eq_append_take,
      List.take_of_length_le (by omega), List.take_of_length_le (by omega)] at htake
    exact ⟨a, b.take (q.length - a.length - pat.length),
      htake.trans (List.append_assoc a pat _).symm⟩
  · -- the occurrence straddles the boundary: pat has a border
    set j : Nat := q.length - a.length with hj
    have hj1 : 1 ≤ j := by omega
    have hjlt : j < pat.length := by omega
    have hdrop : pat.dropLast = pat.drop j ++ b := by
      have h1 : (q ++ pat.dropLast).drop q.length = pat.dropLast := List.drop_left _ _
      rw [hab, List.drop_append_eq_append_drop,
        List.drop_eq_nil_of_le (show a.length ≤ q.length by omega),
        List.drop_append_eq_append_drop] at h1
      have h0 : j - pat.length = 0 := by omega
      rw [h0, List.drop_zero, List.nil_append] at h1
      exact h1.symm
    have hpre : isPre (pat.drop j) pat = true := by
      refine (isPre_iff _ _).mpr ⟨b ++ [pat.getLast hne], ?_⟩
      conv_lhs => rw [← List.dropLast_concat_getLast hne, hdrop]
      rw [List.append_assoc]
    rw [hbf j hjlt hj1] at hpre
    exact absurd hpre (by decide)

/-!  ## Lemmas: prompt template parsing  -/

/-- The Answer marker has no non-trivial border. -/
theorem answer_marker_border_free :
    ∀ j, j < ("\n\nAnswer:").data.length → 1 ≤ j →
      isPre (("\n\nAnswer:").data.drop j) ("\n\nAnswer:").data = false := by
  decide

/-- Parsing of a templated prompt recovers the trimmed context and question,
provided the Question marker does not occur before its templated position
(`hM`) and the Answer marker does not occur in the question (`hN`). -/
theorem parsePrompt_build_prompt (ctx q : String)
    (hM : ¬ Occurs ("\n\nQuestion:\n").data
      (("Context:\n" ++ ctx ++ "\n\nQuestion:" : String)).data)
    (hN : ¬ Occurs ("\n\nAnswer:").data q.data) :
    parsePrompt (build_prompt ctx q) = (pyStrip ctx, pyStrip q) := by
  have hMne : ("\n\nQuestion:\n").data ≠ [] := by decide
  have hNne : ("\n\nAnswer:").data ≠ [] := by decide
  have hdataM : (("Context:\n" ++ ctx ++ "\n\nQuestion:" : String)).data
      = (("Context:\n").data ++ ctx.data) ++ ("\n\nQuestion:\n").data.dropLast := by
    simp only [String.data_append]
    congr 1
  rw [hdataM] at hM
  have hsplit : splitFirst ("\n\nQuestion:\n").data (build_prompt ctx q).data
      = some (("Context:\n").data ++ ctx.data, q.data ++ ("\n\nAnswer:").data) := by
    have hdata : (build_prompt ctx q).data
        = (("Context:\n").data ++ ctx.data) ++ ("\n\nQuestion:\n").data
            ++ (q.data ++ ("\n\nAnswer:").data) := by
      simp [build_prompt, List.append_assoc]
    rw [hdata]
    exact splitFirst_append_pat _ hMne _ _ hM
  have hremC : removeFirst ("Context:\n").data (("Context:\n").data ++ ctx.data)
      = ctx.data := by
    unfold removeFirst
    rw [splitFirst_pat_head _ (by decide) _]
    rfl
  have hNocc : ¬ Occurs ("\n\nAnswer:").data
      (q.data ++ ("\n\nAnswer:").data.dropLast) :=
    not_occurs_append_dropLast _ _ hNne answer_marker_border_free hN
  have hremQ : removeFirst ("\n\nAnswer:").data (q.data ++ ("\n\nAnswer:").data)
      = q.data := by
    unfold removeFirst
    have h2 := splitFirst_append_pat ("\n\nAnswer:").data hNne q.data [] hNocc
    rw [List.append_nil] at h2
    rw [h2]
    show q.data ++ [] = q.data
    exact List.append_nil _
  unfold parsePrompt
  rw [hsplit]
  simp only [hremC, hremQ]
  rfl

/-- The behaviour of `placeholder_llm` on a templated prompt with clean
parsing: the fixed-shape answer built from the first sentence of the
trimmed context and the trimmed question. -/
theorem placeholder_llm_build_prompt (ctx q : String)
    (hM : ¬ Occurs ("\n\nQuestion:\n").data
      (("Context:\n" ++ ctx ++ "\n\nQuestion:" : String)).data)
    (hN : ¬ Occurs ("\n\nAnswer:").data q.data) :
    placeholder_llm (build_prompt ctx q)
      = "Based on the context: " ++ firstSentenceOf (pyStrip ctx) ++ " In answer to \""
          ++ pyStrip q ++ "\": The relevant information is in the context above." := by
  have hparse := parsePrompt_build_prompt ctx q hM hN
  have hg1 : pyIn "Context:\n" (build_prompt ctx q) = true := by
    unfold pyIn
    have hdata : (build_prompt ctx q).data
        = [] ++ ("Context:\n").data
            ++ (ctx ++ "\n\nQuestion:\n" ++ q ++ "\n\nAnswer:" : String).data := by
      simp [build_prompt, List.append_assoc]
    rw [hdata]
    exact splitFirst_isSome_of_append _ _ _
  have hg2 : pyIn "\n\nQuestion:\n" (build_prompt ctx q) = true := by
    unfold pyIn
    have hdata : (build_prompt ctx q).data
        = (("Context:\n").data ++ ctx.data) ++ ("\n\nQuestion:\n").data
            ++ (q.data ++ ("\n\nAnswer:").data) := by
      simp [build_prompt, List.append_assoc]
    rw [hdata]
    exact splitFirst_isSome_of_append _ _ _
  unfold placeholder_llm
  rw [if_pos (by rw [hg1, hg2]; rfl)]
  rw [hparse]

/-- C6: on a cleanly parsed templated prompt the generator emits the fixed
shape built from the first sentence of the context (text up to the first
". " or the end, a period appended when absent) and the trimmed question;
in particular, composing the single Paris chunk with a marker-free question
yields an answer containing "Paris is the capital of France." and the
question text. -/
theorem composer_first_sentence_spec :
    (∀ ctx q : String,
       pyIn "\n\nQuestion:\n" ("Context:\n" ++ ctx ++ "\n\nQuestion:") = false →
       pyIn "\n\nAnswer:" q = false →
       placeholder_llm (build_prompt ctx q)
         = "Based on the context: " ++ firstSentenceOf (pyStrip ctx) ++ " In answer to \""
             ++ pyStrip q ++ "\": The relevant information is in the context above.")
    ∧ (∀ q : String,
       pyIn "Context:\n" q = false → pyIn "\n\nQuestion:\n" q = false →
       pyIn "\n\nAnswer:" q = false →
       ContainsStr
         (composeWith placeholder_llm
           ["Paris is the capital of France. It is known for the Eiffel Tower."] q)
         "Paris is the capital of France."
       ∧ ContainsStr
           (composeWith placeholder_llm
             ["Paris is the capital of France. It is known for the Eiffel Tower."] q)
           (pyStrip q)) := by
  constructor
  · intro ctx q hM hN
    exact placeholder_llm_build_prompt ctx q
      (not_occurs_of_splitFirst_none _ _ hM) (not_occurs_of_splitFirst_none _ _ hN)
  · intro q h1 h2 h3
    have hcw : composeWith placeholder_llm
        ["Paris is the capital of France. It is known for the Eiffel Tower."] q
        = placeholder_llm (build_prompt
            (build_context ["Paris is the capital of France. It is known for the Eiffel Tower."]) q) :=
      rfl
    have hbc : build_context ["Paris is the capital of France. It is known for the Eiffel Tower."]
        = "Paris is the capital of France. It is known for the Eiffel Tower." := by decide
    have heq := placeholder_llm_build_prompt
      "Paris is the capital of France. It is known for the Eiffel Tower." q
      (not_occurs_of_splitFirst_none _ _ (by decide))
      (not_occurs_of_splitFirst_none _ _ h3)
    have hans : composeWith placeholder_llm
        ["Paris is the capital of France. It is known for the Eiffel Tower."] q
        = "Based on the context: "
            ++ firstSentenceOf (pyStrip "Paris is the capital of France. It is known for the Eiffel Tower.")
            ++ " In answer to \"" ++ pyStrip q
            ++ "\": The relevant information is in the context above." := by
      rw [hcw, hbc, heq]
    have hfs : firstSentenceOf (pyStrip "Paris is the capital of France. It is known for the Eiffel Tower.")
        = "Paris is the capital of France." := by decide
    constructor
    · refine ⟨"Based on the context: ",
        " In answer to \"" ++ pyStrip q ++ "\": The relevant information is in the context above.", ?_⟩
      rw [hans, hfs]
      apply String.ext
      simp [List.append_assoc]
    · refine ⟨"Based on the context: "
          ++ firstSentenceOf (pyStrip "Paris is the capital of France. It is known for the Eiffel Tower.")
          ++ " In answer to \"",
        "\": The relevant information is in the context above.", ?_⟩
      rw [hans]

theorem composer_first_sentence_spec_witness :
    (pyIn "\n\nQuestion:\n"
       ("Context:\n" ++ "Paris is the capital of France. It is known for the Eiffel Tower."
         ++ "\n\nQuestion:") = false)
    ∧ (pyIn "Context:\n" "What is Paris known for?" = false)
    ∧ (pyIn "\n\nQuestion:\n" "What is Paris known for?" = false)
    ∧ (pyIn "\n\nAnswer:" "What is Paris known for?" = false)
    ∧ placeholder_llm (build_prompt
        "Paris is the capital of France. It is known for the Eiffel Tower."
        "What is Paris known for?")
        = "Based on the context: "
            ++ firstSentenceOf
                (pyStrip "Paris is the capital of France. It is known for the Eiffel Tower.")
            ++ " In answer to \"" ++ pyStrip "What is Paris known for?"
            ++ "\": The relevant information is in the context above."
    ∧ ContainsStr
        (composeWith placeholder_llm
          ["Paris is the capital of France. It is known for the Eiffel Tower."]
          "What is Paris known for?")
        "Paris is the capital of France." :=
  ⟨by decide, by decide, by decide, by decide,
   composer_first_sentence_spec.1
     "Paris is the capital of France. It is known for the Eiffel Tower."
     "What is Paris known for?" (by decide) (by decide),
   (composer_first_sentence_spec.2 "What is Paris known for?"
     (by decide) (by decide) (by decide)).1⟩

/-- C7 counterexample: the context "A\n\nQuestion:" and the question "B"
contain none of the three template markers, yet parsing the templated
prompt does not recover the trimmed context and question: an occurrence of
the Question marker straddles the boundary between the context and the
template, so the split happens too early. -/
theorem prompt_roundtrip_counterexample :
    (pyIn "Context:\n" "A\n\nQuestion:" = false)
    ∧ (pyIn "\n\nQuestion:\n" "A\n\nQuestion:" = false)
    ∧ (pyIn "\n\nAnswer:" "A\n\nQuestion:" = false)
    ∧ (pyIn "Context:\n" "B" = false)
    ∧ (pyIn "\n\nQuestion:\n" "B" = false)
    ∧ (pyIn "\n\nAnswer:" "B" = false)
    ∧ parsePrompt (build_prompt "A\n\nQuestion:" "B")
        ≠ (pyStrip "A\n\nQuestion:", pyStrip "B") := by
  decide

/-- C7 (amended): the prompt round-trip holds when additionally no
occurrence of the Question marker spans the template boundaries, i.e.
`"Context:\n" + context + "\n\nQuestion:"` does not contain
`"\n\nQuestion:\n"`. -/
theorem prompt_roundtrip_amended (ctx q : String)
    (hc1 : pyIn "Context:\n" ctx = false)
    (hc2 : pyIn "\n\nQuestion:\n" ctx = false)
    (hc3 : pyIn "\n\nAnswer:" ctx = false)
    (hq1 : pyIn "Context:\n" q = false)
    (hq2 : pyIn "\n\nQuestion:\n" q = false)
    (hq3 : pyIn "\n\nAnswer:" q = false)
    (hb : pyIn "\n\nQuestion:\n" ("Context:\n" ++ ctx ++ "\n\nQuestion:") = false) :
    parsePrompt (build_prompt ctx q) = (pyStrip ctx, pyStrip q) :=
  parsePrompt_build_prompt ctx q
    (not_occurs_of_splitFirst_none _ _ hb) (not_occurs_of_splitFirst_none _ _ hq3)

theorem prompt_roundtrip_amended_witness :
    (pyIn "Context:\n" "Berlin is big. It is old." = false)
    ∧ (pyIn "\n\nQuestion:\n" "Berlin is big. It is old." = false)
    ∧ (pyIn "\n\nAnswer:" "Berlin is big. It is old." = false)
    ∧ (pyIn "Context:\n" "How big?" = false)
    ∧ (pyIn "\n\nQuestion:\n" "How big?" = false)
    ∧ (pyIn "\n\nAnswer:" "How big?" = false)
    ∧ (pyIn "\n\nQuestion:\n" ("Context:\n" ++ "Berlin is big. It is old." ++ "\n\nQuestion:") = false)
    ∧ parsePrompt (build_prompt "Berlin is big. It is old." "How big?")
        = (pyStrip "Berlin is big. It is old.", pyStrip "How big?") :=
  ⟨by decide, by decide, by decide, by decide, by decide, by decide, by decide,
   prompt_roundtrip_amended "Berlin is big. It is old." "How big?"
     (by decide) (by decide) (by decide) (by decide) (by decide) (by decide) (by decide)⟩

/-!  ## Retrieval properties  -/

/-- Looking a key up in a metadata map whose records are `{"text": t}`
(as written by ingestion) gives exactly the association-list lookup. -/
theorem metaText_wrap (meta : List (String × String)) (key : String) :
    metaText (meta.map (fun kv => (kv.1, [("text", kv.2)]))) key
      = (meta.find? (fun kv => kv.1 = key)).map (fun kv => kv.2) := by
  induction meta with
  | nil => rfl
  | cons kv rest ih =>
    by_cases h : kv.1 = key
    · simp [metaText, List.find?_cons, h]
    · simpa [metaText, List.find?_cons, h] using ih

/-- C4: for a 200 response whose declared content type does not contain
"application/msgpack", `retrieve_chunks` returns the empty result without
attempting to decode the body (the outcome is independent of the decoder),
and the two debug lines are emitted separately from the result. -/
theorem content_type_guard {β : Type} (unpack unpack2 : β → Except PyErr MVal)
    (metadata : Metadata) (resp : SearchResponse β)
    (h200 : resp.status = 200)
    (hct : pyIn "application/msgpack" resp.contentType = false) :
    retrieveFromResponse unpack metadata resp
      = (Except.ok [], ["DEBUG: Non-msgpack response from Endee", pyTake resp.bodyText 300])
    ∧ retrieveFromResponse unpack metadata resp
      = retrieveFromResponse unpack2 metadata resp := by
  have h1 : ∀ u : β → Except PyErr MVal,
      retrieveFromResponse u metadata resp
        = (Except.ok [], ["DEBUG: Non-msgpack response from Endee", pyTake resp.bodyText 300]) := by
    intro u
    unfold retrieveFromResponse
    rw [if_neg (show ¬(resp.status ≠ 200) from fun hne => hne h200),
      if_pos (show (!pyIn "application/msgpack" resp.contentType) = true by rw [hct]; rfl)]
  exact ⟨h1 unpack, (h1 unpack).trans (h1 unpack2).symm⟩

theorem content_type_guard_witness :
    ((⟨200, "text/html", "<html>endee ui</html>", ()⟩ : SearchResponse Unit).status = 200)
    ∧ (pyIn "application/msgpack" "text/html" = false)
    ∧ retrieveFromResponse (fun _ => Except.ok (MVal.mlist [])) []
        (⟨200, "text/html", "<html>endee ui</html>", ()⟩ : SearchResponse Unit)
        = (Except.ok [],
           ["DEBUG: Non-msgpack response from Endee", pyTake "<html>endee ui</html>" 300]) :=
  ⟨rfl, by decide,
   (content_type_guard (fun _ => Except.ok (MVal.mlist [])) (fun _ => Except.ok (MVal.mlist []))
     [] _ rfl (by decide)).1⟩

/-- C1: on a decoded search-result list of well-formed hits (each a
`[score, id]` pair) and a metadata mapping of records `{"text": t}`, the
id-mapping loop returns exactly one entry per hit, in rank order: the
metadata text when the id is present, the sentinel string otherwise; in
particular the output length equals the number of hits. -/
theorem retrieve_per_hit (hits : List (MVal × String)) (meta : List (String × String)) :
    mapLoop (meta.map (fun kv => (kv.1, [("text", kv.2)])))
        (hits.map (fun h => MVal.mlist [h.1, MVal.mstr h.2]))
      = Except.ok (hits.map (fun h =>
          match meta.find? (fun kv => kv.1 = h.2) with
          | some kv => kv.2
          | none => sentinelFor h.2))
    ∧ (hits.map (fun h =>
          match meta.find? (fun kv => kv.1 = h.2) with
          | some kv => kv.2
          | none => sentinelFor h.2)).length = hits.length := by
  refine ⟨?_, by simp⟩
  induction hits with
  | nil => rfl
  | cons h0 rest ih =>
    simp only [List.map_cons, mapLoop, pyStrOfHashable, metaText_wrap, ih]
    rcases hfind : meta.find? (fun kv => kv.1 = h0.2) with _ | kv
    · simp [hfind]
    · simp [hfind]

/-- C10 (code behaviour at the failing input): a decoded result item that
is a one-element list passes the `len(item) == 0` guard, and the subsequent
`item[1]` access is out of bounds: the mapping loop raises `IndexError`
instead of completing, both in isolation and through the whole decoded
response path. -/
theorem mapLoop_singleton_index_error :
    mapLoop [] [MVal.mlist [MVal.mstr "chunk_0"]] = Except.error PyErr.indexError
    ∧ retrieveFromResponse
        (fun _ => Except.ok (MVal.mlist [MVal.mlist [MVal.mstr "chunk_0"]]))
        [] (⟨200, "application/msgpack", "", ()⟩ : SearchResponse Unit)
        = (Except.error PyErr.indexError, []) :=
  ⟨rfl, rfl⟩

/-!  ## Ingestion id-space properties  -/

theorem toDigitsRev_lt_ten (n : Nat) : ∀ d ∈ toDigitsRev n, d < 10 := by
  induction n using toDigitsRev.induct with
  | case1 => simp [toDigitsRev]
  | case2 n ih =>
    rw [toDigitsRev]
    intro d hd
    rcases List.mem_cons.mp hd with h | h
    · subst h
      exact Nat.mod_lt _ (by omega)
    · exact ih d h

theorem fromDigitsLE_toDigitsRev (n : Nat) : fromDigitsLE (toDigitsRev n) = n := by
  induction n using toDigitsRev.induct with
  | case1 =>
    rw [toDigitsRev]
    rfl
  | case2 n ih =>
    rw [toDigitsRev, fromDigitsLE, ih]
    omega

theorem charDigit_digitChar : ∀ d, d < 10 → charDigit (digitChar d) = d := by
  decide

theorem parseNat_natStr (n : Nat) : parseNat (natStr n) = n := by
  by_cases h0 : n = 0
  · subst h0; rfl
  · unfold natStr parseNat
    rw [if_neg h0]
    show fromDigitsLE ((((toDigitsRev n).reverse.map digitChar).map charDigit).reverse) = n
    rw [List.map_map]
    have hcongr : ((toDigitsRev n).reverse.map (charDigit ∘ digitChar))
        = (toDigitsRev n).reverse.map id :=
      List.map_congr_left (fun d hd =>
        charDigit_digitChar d (toDigitsRev_lt_ten n d (List.mem_reverse.mp hd)))
    rw [hcongr, List.map_id, List.reverse_reverse, fromDigitsLE_toDigitsRev]

theorem natStr_injective : Function.Injective natStr := by
  intro a b hab
  have := congrArg parseNat hab
  rwa [parseNat_natStr, parseNat_natStr] at this

theorem chunkId_injective : Function.Injective chunkId := by
  intro a b hab
  apply natStr_injective
  apply String.ext
  have hd := congrArg String.data hab
  simp only [chunkId, String.data_append] at hd
  exact List.append_cancel_left hd

theorem ingestLoop_zip_eq {V : Type} (embed : String → V) :
    ∀ (cs : List String) (i : Nat),
      ingestLoop i (cs.zip (cs.map embed))
        = ((cs.enumFrom i).map (fun p => ⟨chunkId p.1, embed p.2⟩),
           (cs.enumFrom i).map (fun p => (chunkId p.1, p.2))) := by
  intro cs
  induction cs with
  | nil => intro i; rfl
  | cons c rest ih =>
    intro i
    simp only [List.zip] at ih ⊢
    simp only [List.map_cons, List.zipWith_cons_cons, List.enumFrom_cons, ingestLoop, ih]

/-- C9: in one ingestion run the assigned ids are the sequential namespaced
ids chunk_0, chunk_1, ...; they are pairwise distinct; the ids sent to the
vector index coincide (as an ordered list, hence as a set) with the keys of
the metadata record; and the entry at each position pairs the id with
exactly the chunk text (metadata) and its embedding (insert payload). -/
theorem ingest_id_space {V : Type} (embed : String → V) (chunks : List String)
    (hne : chunks ≠ []) :
    ((ingestRun embed chunks).1.map (fun v => v.id)
        = (List.range chunks.length).map chunkId)
    ∧ ((ingestRun embed chunks).1.map (fun v => v.id)).Nodup
    ∧ ((ingestRun embed chunks).1.map (fun v => v.id)
        = (ingestRun embed chunks).2.map (fun kv => kv.1))
    ∧ (ingestRun embed chunks).2 = (chunks.enumFrom 0).map (fun p => (chunkId p.1, p.2))
    ∧ (ingestRun embed chunks).1
        = (chunks.enumFrom 0).map (fun p => ⟨chunkId p.1, embed p.2⟩) := by
  have hrun := ingestLoop_zip_eq embed chunks 0
  have hids : (ingestRun embed chunks).1.map (fun v => v.id)
      = (List.range chunks.length).map chunkId := by
    unfold ingestRun
    rw [hrun]
    rw [List.map_map, List.range_eq_range', ← List.enumFrom_map_fst 0 chunks, List.map_map]
    rfl
  refine ⟨hids, ?_, ?_, ?_, ?_⟩
  · rw [hids]
    exact (List.nodup_range _).map chunkId_injective
  · unfold ingestRun
    rw [hrun]
    simp [List.map_map]
  · unfold ingestRun
    rw [hrun]
  · unfold ingestRun
    rw [hrun]

theorem ingest_id_space_witness :
    ((["alpha", "beta"] : List String) ≠ [])
    ∧ ((ingestRun (fun s => s.length) ["alpha", "beta"]).1.map (fun v => v.id)
        = (List.range (["alpha", "beta"] : List String).length).map chunkId) :=
  ⟨by decide, (ingest_id_space (fun s => s.length) ["alpha", "beta"] (by decide)).1⟩
